import Mathlib

/-!
Shallow embedding of the attendance-manager core handlers
(`src/server/src/handlers/attendance.ts` and the leave-request handler file)
over an explicit relational store.  Machine times are epoch milliseconds
(`Nat`); calendar days (the `YYYY-MM-DD` strings the source derives with
`startOfDay.toISOString().split('T')[0]`) are abstracted as `Nat` day keys;
nullable columns are `Option`; the per-call wall clock is passed explicitly.
Every handler is a pure function returning the thrown error or the result,
paired with the post-state of the store.
-/

namespace AttendanceSpec

/-- `user_role` enum from `db/schema.ts`. -/
inductive UserRole where
  | employee
  | admin
deriving DecidableEq

/-- `leave_request_status` enum from `db/schema.ts`. -/
inductive LeaveRequestStatus where
  | pending
  | approved
  | rejected
deriving DecidableEq

/-- `leave_request_type` enum from `db/schema.ts`. -/
inductive LeaveRequestType where
  | vacation
  | sick
  | personal
  | emergency
deriving DecidableEq

/-- A row of `usersTable`.  Only the columns consulted by the modelled
handlers are carried (`id` for existence checks, `role`/`is_active` because
the spec discusses them); the remaining columns (email, names, department,
…) are never read by these handlers. -/
structure User where
  id : Nat
  role : UserRole
  is_active : Bool
deriving DecidableEq

/-- A row of `attendanceRecordsTable`.  `clock_in`/`clock_out`/audit columns
are epoch milliseconds; `date` is the calendar-day key; `total_hours` is the
numeric column (exact rational in the model). -/
structure AttendanceRecord where
  id : Nat
  user_id : Nat
  clock_in : Nat
  clock_out : Option Nat
  total_hours : Option ℚ
  date : Nat
  notes : Option String
  created_at : Nat
  updated_at : Nat
deriving DecidableEq

/-- A row of `leaveRequestsTable`. -/
structure LeaveRequest where
  id : Nat
  user_id : Nat
  type : LeaveRequestType
  start_date : Nat
  end_date : Nat
  reason : String
  status : LeaveRequestStatus
  approved_by : Option Nat
  approved_at : Option Nat
  rejection_reason : Option String
  created_at : Nat
  updated_at : Nat
deriving DecidableEq

/-- The relational store: the three tables plus the next value of each
serial primary-key sequence used by the modelled inserts. -/
structure Db where
  users : List User
  attendance : List AttendanceRecord
  leaves : List LeaveRequest
  nextAttendanceId : Nat
  nextLeaveId : Nat
deriving DecidableEq

/-- The wall clock of one handler call: `now` is `new Date()` in epoch
milliseconds, `today` the calendar-day key the source derives from it. -/
structure Clock where
  now : Nat
  today : Nat
deriving DecidableEq

/-- Errors thrown by the handlers.  The source throws plain `Error(msg)`;
the constructor records the taxonomy class the spec assigns to each
message, the argument is the exact message string thrown. -/
inductive HandlerError where
  | notFound (msg : String)
  | conflict (msg : String)
  | validation (msg : String)
deriving DecidableEq

/-- `ClockInInput` (`user_id`, optional nullable `notes`). -/
structure ClockInInput where
  user_id : Nat
  notes : Option String
deriving DecidableEq

/-- `ClockOutInput` (`user_id`, optional nullable `notes`). -/
structure ClockOutInput where
  user_id : Nat
  notes : Option String
deriving DecidableEq

/-- `CreateLeaveRequestInput`. -/
structure CreateLeaveRequestInput where
  user_id : Nat
  type : LeaveRequestType
  start_date : Nat
  end_date : Nat
  reason : String
deriving DecidableEq

/-- `UpdateLeaveRequestStatusInput`. -/
structure UpdateLeaveRequestStatusInput where
  id : Nat
  status : LeaveRequestStatus
  approved_by : Nat
  rejection_reason : Option String
deriving DecidableEq

/-- `GetUserAttendanceInput` (optional date-range bounds). -/
structure GetUserAttendanceInput where
  user_id : Nat
  start_date : Option Nat
  end_date : Option Nat
deriving DecidableEq

/-- Result shape of `getTodayAttendanceStatus`. -/
structure TodayAttendanceStatus where
  hasClockedIn : Bool
  hasClockedOut : Bool
  currentRecord : Option AttendanceRecord
deriving DecidableEq

/-- JavaScript `a || b` on a nullable/optional string `a`: both
`null`/`undefined` and the empty string are falsy. -/
def jsOr (a b : Option String) : Option String :=
  match a with
  | some s => if s = "" then b else some s
  | none => b

/-- `db.select().from(usersTable).where(eq(usersTable.id, uid))`. -/
def findUsersById (uid : Nat) (s : Db) : List User :=
  s.users.filter (fun u => u.id == uid)

/-- `db.select().from(attendanceRecordsTable).where(and(eq(user_id, uid),
eq(date, today)))`. -/
def findAttendanceByUserAndDate (uid day : Nat) (s : Db) : List AttendanceRecord :=
  s.attendance.filter (fun r => r.user_id == uid && r.date == day)

/-- `db.select().from(leaveRequestsTable).where(eq(id, rid))`. -/
def findLeaveRequestsById (rid : Nat) (s : Db) : List LeaveRequest :=
  s.leaves.filter (fun r => r.id == rid)

/-- `db.select().from(leaveRequestsTable).where(and(eq(id, rid),
eq(user_id, uid)))`. -/
def findLeaveRequestsByIdAndUser (rid uid : Nat) (s : Db) : List LeaveRequest :=
  s.leaves.filter (fun r => r.id == rid && r.user_id == uid)

/-- The row inserted by `clockIn` (`attendance.ts` lines 38-48):
`clock_in = now`, `clock_out/total_hours = null`, `date = today`,
`notes = input.notes || null`. -/
def clockInRecord (c : Clock) (input : ClockInInput) (s : Db) : AttendanceRecord :=
  { id := s.nextAttendanceId
    user_id := input.user_id
    clock_in := c.now
    clock_out := none
    total_hours := none
    date := c.today
    notes := jsOr input.notes none
    created_at := c.now
    updated_at := c.now }

/-- `clockIn` (`attendance.ts` lines 8-60): user-existence check, then
per-(user, today) duplicate check, then a single insert. -/
def clockIn (c : Clock) (input : ClockInInput) (s : Db) :
    Except HandlerError AttendanceRecord × Db :=
  if (findUsersById input.user_id s).length == 0 then
    (.error (.notFound "User not found"), s)
  else if (findAttendanceByUserAndDate input.user_id c.today s).length > 0 then
    (.error (.conflict "User has already clocked in today"), s)
  else
    (.ok (clockInRecord c input s),
     { s with attendance := s.attendance ++ [clockInRecord c input s],
              nextAttendanceId := s.nextAttendanceId + 1 })

/-- The SET clause of the `clockOut` update (`attendance.ts` lines 101-107),
applied to row `r`; the set values are constants computed from the fetched
`record`: `clock_out = now`, `total_hours = (now - record.clock_in) ms
divided by 1000*60*60`, `notes = input.notes || record.notes`. -/
def clockOutSet (c : Clock) (input : ClockOutInput) (record r : AttendanceRecord) :
    AttendanceRecord :=
  { r with
      clock_out := some c.now
      total_hours := some (((c.now : ℚ) - (record.clock_in : ℚ)) / (1000 * 60 * 60))
      notes := jsOr input.notes record.notes
      updated_at := c.now }

/-- `clockOut` (`attendance.ts` lines 62-122): user-existence check, fetch
of today's record, already-clocked-out check, then a single update keyed by
`record.id`. -/
def clockOut (c : Clock) (input : ClockOutInput) (s : Db) :
    Except HandlerError AttendanceRecord × Db :=
  if (findUsersById input.user_id s).length == 0 then
    (.error (.notFound "User not found"), s)
  else
    match findAttendanceByUserAndDate input.user_id c.today s with
    | [] => (.error (.notFound "No clock-in record found for today"), s)
    | record :: _ =>
      if record.clock_out.isSome then
        (.error (.conflict "User has already clocked out today"), s)
      else
        (.ok (clockOutSet c input record record),
         { s with attendance := s.attendance.map
                    (fun r => if r.id == record.id then clockOutSet c input record r
                              else r) })

/-- `getTodayAttendanceStatus` (`attendance.ts` lines 183-235). -/
def getTodayAttendanceStatus (c : Clock) (userId : Nat) (s : Db) :
    Except HandlerError TodayAttendanceStatus :=
  if (findUsersById userId s).length == 0 then
    .error (.notFound "User not found")
  else
    match findAttendanceByUserAndDate userId c.today s with
    | [] => .ok { hasClockedIn := false, hasClockedOut := false, currentRecord := none }
    | record :: _ =>
        .ok { hasClockedIn := true, hasClockedOut := record.clock_out.isSome,
              currentRecord := some record }

/-- Insertion step of the `orderBy(desc(date))` ordering. -/
def insertByDateDesc (r : AttendanceRecord) : List AttendanceRecord → List AttendanceRecord
  | [] => [r]
  | x :: xs => if r.date ≤ x.date then x :: insertByDateDesc r xs else r :: x :: xs

/-- `orderBy(desc(attendanceRecordsTable.date))`. -/
def sortByDateDesc : List AttendanceRecord → List AttendanceRecord
  | [] => []
  | x :: xs => insertByDateDesc x (sortByDateDesc xs)

/-- `getUserAttendance` (`attendance.ts` lines 124-163): user-existence
check, filter by user and optional inclusive date bounds, date-descending
order. -/
def getUserAttendance (input : GetUserAttendanceInput) (s : Db) :
    Except HandlerError (List AttendanceRecord) :=
  if (findUsersById input.user_id s).length == 0 then
    .error (.notFound "User not found")
  else
    .ok (sortByDateDesc (s.attendance.filter (fun r =>
      r.user_id == input.user_id
      && (match input.start_date with | some d => decide (d ≤ r.date) | none => true)
      && (match input.end_date with | some d => decide (r.date ≤ d) | none => true))))

/-- The row inserted by `createLeaveRequest` (leave handler lines 24-34):
`status = 'pending'`, the remaining nullable columns take their column
defaults (`null`). -/
def createLeaveRequestRecord (c : Clock) (input : CreateLeaveRequestInput) (s : Db) :
    LeaveRequest :=
  { id := s.nextLeaveId
    user_id := input.user_id
    type := input.type
    start_date := input.start_date
    end_date := input.end_date
    reason := input.reason
    status := .pending
    approved_by := none
    approved_at := none
    rejection_reason := none
    created_at := c.now
    updated_at := c.now }

/-- `createLeaveRequest` (leave handler lines 6-47): user-existence check,
`start_date > end_date` validation, then a single insert. -/
def createLeaveRequest (c : Clock) (input : CreateLeaveRequestInput) (s : Db) :
    Except HandlerError LeaveRequest × Db :=
  if (findUsersById input.user_id s).length == 0 then
    (.error (.notFound "User not found"), s)
  else if input.end_date < input.start_date then
    (.error (.validation "Start date must be before or equal to end date"), s)
  else
    (.ok (createLeaveRequestRecord c input s),
     { s with leaves := s.leaves ++ [createLeaveRequestRecord c input s],
              nextLeaveId := s.nextLeaveId + 1 })

/-- The SET clause of `updateLeaveRequestStatus` (leave handler lines
71-77): `status`, `approved_by`, `approved_at = now iff approved else
null`, `rejection_reason = input.rejection_reason || null`; the current
status of the row is never consulted. -/
def updateLeaveRequestData (c : Clock) (input : UpdateLeaveRequestStatusInput)
    (r : LeaveRequest) : LeaveRequest :=
  { r with
      status := input.status
      approved_by := some input.approved_by
      approved_at := if input.status == .approved then some c.now else none
      rejection_reason := jsOr input.rejection_reason none }

/-- `updateLeaveRequestStatus` (leave handler lines 49-96):
request-existence check, approver-existence check, then a single update
keyed by `input.id`. -/
def updateLeaveRequestStatus (c : Clock) (input : UpdateLeaveRequestStatusInput)
    (s : Db) : Except HandlerError LeaveRequest × Db :=
  match findLeaveRequestsById input.id s with
  | [] => (.error (.notFound "Leave request not found"), s)
  | record :: _ =>
    if (findUsersById input.approved_by s).length == 0 then
      (.error (.notFound "Approver not found"), s)
    else
      (.ok (updateLeaveRequestData c input record),
       { s with leaves := s.leaves.map
                  (fun r => if r.id == input.id then updateLeaveRequestData c input r
                            else r) })

/-- Insertion step of the `orderBy(desc(created_at))` ordering. -/
def insertByCreatedDesc (r : LeaveRequest) : List LeaveRequest → List LeaveRequest
  | [] => [r]
  | x :: xs => if r.created_at ≤ x.created_at then x :: insertByCreatedDesc r xs
               else r :: x :: xs

/-- `orderBy(desc(leaveRequestsTable.created_at))`. -/
def sortByCreatedDesc : List LeaveRequest → List LeaveRequest
  | [] => []
  | x :: xs => insertByCreatedDesc x (sortByCreatedDesc xs)

/-- `getUserLeaveRequests` (leave handler lines 98-127). -/
def getUserLeaveRequests (userId : Nat) (s : Db) :
    Except HandlerError (List LeaveRequest) :=
  if (findUsersById userId s).length == 0 then
    .error (.notFound "User not found")
  else
    .ok (sortByCreatedDesc (s.leaves.filter (fun r => r.user_id == userId)))

/-- `deleteLeaveRequest` (leave handler lines 170-202): ownership-conflating
existence check, pending-status check, then a single delete keyed by
`requestId`. -/
def deleteLeaveRequest (requestId userId : Nat) (s : Db) :
    Except HandlerError Bool × Db :=
  match findLeaveRequestsByIdAndUser requestId userId s with
  | [] => (.error (.notFound "Leave request not found or does not belong to user"), s)
  | record :: _ =>
    if record.status != .pending then
      (.error (.conflict "Only pending leave requests can be deleted"), s)
    else
      (.ok true, { s with leaves := s.leaves.filter (fun r => r.id != requestId) })

/-- Per-day uniqueness: no two rows of the attendance table share
`(user_id, date)`. -/
def attUnique (s : Db) : Prop :=
  s.attendance.Pairwise (fun a b => ¬(a.user_id = b.user_id ∧ a.date = b.date))

/-- Primary-key uniqueness of the attendance table (enforced by the serial
column in the store). -/
def attIdsNodup (s : Db) : Prop :=
  s.attendance.Pairwise (fun a b => a.id ≠ b.id)

/-- Primary-key uniqueness of the leave-request table. -/
def leaveIdsNodup (s : Db) : Prop :=
  s.leaves.Pairwise (fun a b => a.id ≠ b.id)

/-- The derived-hours value a completed record must carry: `none` while not
clocked out, else `(clock_out - clock_in)` milliseconds over `1000*60*60`. -/
def hoursOf (r : AttendanceRecord) : Option ℚ :=
  r.clock_out.map (fun t => ((t : ℚ) - (r.clock_in : ℚ)) / (1000 * 60 * 60))

/-- `total_hours` is null iff `clock_out` is null and otherwise equals the
clock-out minus clock-in span in hours, on every attendance row. -/
def hoursInv (s : Db) : Prop :=
  ∀ r ∈ s.attendance, r.total_hours = hoursOf r

/-- Overwrite every user row's `is_active` flag according to `f`, leaving
everything else in the store unchanged. -/
def setActive (f : User → Bool) (s : Db) : Db :=
  { s with users := s.users.map (fun u => { u with is_active := f u }) }

/-- Concrete fixture: an admin user with id 1. -/
def user1 : User := { id := 1, role := .admin, is_active := true }

/-- Concrete fixture clock: `now` = 500 ms, day key 5. -/
def clk1 : Clock := { now := 500, today := 5 }

/-- Concrete fixture: an open attendance record for user 1 on day 5 with
notes "old". -/
def recOld : AttendanceRecord :=
  { id := 1, user_id := 1, clock_in := 100, clock_out := none,
    total_hours := none, date := 5, notes := some "old",
    created_at := 100, updated_at := 100 }

/-- Concrete fixture: store holding `user1` and the open record `recOld`. -/
def dbClockedIn : Db :=
  { users := [user1], attendance := [recOld], leaves := [],
    nextAttendanceId := 2, nextLeaveId := 1 }

/-- Concrete fixture: store holding only `user1`. -/
def dbUserOnly : Db :=
  { users := [user1], attendance := [], leaves := [],
    nextAttendanceId := 1, nextLeaveId := 1 }

/-- Concrete fixture: an approved leave request owned by user 1. -/
def reqApproved : LeaveRequest :=
  { id := 1, user_id := 1, type := .vacation, start_date := 10, end_date := 12,
    reason := "trip", status := .approved, approved_by := some 1,
    approved_at := some 100, rejection_reason := none,
    created_at := 50, updated_at := 50 }

/-- Concrete fixture: a pending leave request owned by user 1. -/
def reqPending : LeaveRequest :=
  { id := 1, user_id := 1, type := .vacation, start_date := 10, end_date := 12,
    reason := "trip", status := .pending, approved_by := none,
    approved_at := none, rejection_reason := none,
    created_at := 50, updated_at := 50 }

/-- Concrete fixture: store holding `user1` and the approved request. -/
def dbApproved : Db :=
  { users := [user1], attendance := [], leaves := [reqApproved],
    nextAttendanceId := 1, nextLeaveId := 2 }

/-- Concrete fixture: store holding `user1` and the pending request. -/
def dbPending : Db :=
  { users := [user1], attendance := [], leaves := [reqPending],
    nextAttendanceId := 1, nextLeaveId := 2 }

/-- Concrete fixture: the empty store. -/
def dbEmpty : Db :=
  { users := [], attendance := [], leaves := [],
    nextAttendanceId := 1, nextLeaveId := 1 }

/-! ### Generic helper lemmas -/

theorem filter_eq_singleton_of_mem {α : Type} (p : α → Bool) :
    ∀ (l : List α), l.Pairwise (fun a b => ¬(p a = true ∧ p b = true)) →
      ∀ r, r ∈ l → p r = true → l.filter p = [r] := by
  intro l
  induction l with
  | nil => intro _ r hr; cases hr
  | cons a l ih =>
      intro hp r hr hpr
      rcases List.pairwise_cons.mp hp with ⟨ha, hl⟩
      rcases List.mem_cons.mp hr with h | h
      · subst h
        have hnil : l.filter p = [] := by
          rw [List.filter_eq_nil_iff]
          intro b hb hpb
          exact ha b hb ⟨hpr, hpb⟩
        simp [List.filter_cons, hpr, hnil]
      · have hpa : p a = false := by
          cases hpa : p a
          · rfl
          · exact absurd ⟨hpa, hpr⟩ (ha r h)
        simp [List.filter_cons, hpa, ih hl r h hpr]

theorem mem_eq_of_key_unique {α : Type} (key : α → Nat) :
    ∀ (l : List α), l.Pairwise (fun a b => key a ≠ key b) →
      ∀ a, a ∈ l → ∀ b, b ∈ l → key a = key b → a = b := by
  intro l
  induction l with
  | nil => intro _ a ha; cases ha
  | cons x l ih =>
      intro hp a ha b hb hk
      rcases List.pairwise_cons.mp hp with ⟨hx, hl⟩
      rcases List.mem_cons.mp ha with h1 | h1 <;> rcases List.mem_cons.mp hb with h2 | h2
      · rw [h1, h2]
      · subst h1; exact absurd hk (hx b h2)
      · subst h2; exact absurd hk.symm (hx a h1)
      · exact ih hl a h1 b h2 hk

/-! ### Bridge lemmas about the embedded queries -/

theorem findUsersById_eq_nil_iff (uid : Nat) (s : Db) :
    findUsersById uid s = [] ↔ ∀ u ∈ s.users, u.id ≠ uid := by
  unfold findUsersById
  rw [List.filter_eq_nil_iff]
  simp

theorem userMissing_iff (uid : Nat) (s : Db) :
    ((findUsersById uid s).length == 0) = true ↔ ∀ u ∈ s.users, u.id ≠ uid := by
  rw [beq_iff_eq, List.length_eq_zero]
  exact findUsersById_eq_nil_iff uid s

theorem findAttendance_eq_nil_iff (uid day : Nat) (s : Db) :
    findAttendanceByUserAndDate uid day s = [] ↔
      ∀ r ∈ s.attendance, ¬(r.user_id = uid ∧ r.date = day) := by
  unfold findAttendanceByUserAndDate
  rw [List.filter_eq_nil_iff]
  simp

theorem findAttendance_singleton (uid day : Nat) (s : Db) (h : attUnique s)
    (r : AttendanceRecord) (hr : r ∈ s.attendance)
    (huid : r.user_id = uid) (hday : r.date = day) :
    findAttendanceByUserAndDate uid day s = [r] := by
  unfold findAttendanceByUserAndDate
  refine filter_eq_singleton_of_mem _ _ (h.imp ?_) r hr ?_
  · intro a b hab hp
    rcases hp with ⟨hpa, hpb⟩
    simp only [Bool.and_eq_true, beq_iff_eq] at hpa hpb
    exact hab ⟨hpa.1.trans hpb.1.symm, hpa.2.trans hpb.2.symm⟩
  · simp [huid, hday]

theorem findLeaveById_singleton (rid : Nat) (s : Db) (h : leaveIdsNodup s)
    (r : LeaveRequest) (hr : r ∈ s.leaves) (hid : r.id = rid) :
    findLeaveRequestsById rid s = [r] := by
  unfold findLeaveRequestsById
  refine filter_eq_singleton_of_mem _ _ (h.imp ?_) r hr ?_
  · intro a b hab hp
    rcases hp with ⟨hpa, hpb⟩
    simp only [beq_iff_eq] at hpa hpb
    exact hab (hpa.trans hpb.symm)
  · simp [hid]

theorem findLeaveByIdAndUser_singleton (rid uid : Nat) (s : Db) (h : leaveIdsNodup s)
    (r : LeaveRequest) (hr : r ∈ s.leaves) (hid : r.id = rid) (huid : r.user_id = uid) :
    findLeaveRequestsByIdAndUser rid uid s = [r] := by
  unfold findLeaveRequestsByIdAndUser
  refine filter_eq_singleton_of_mem _ _ (h.imp ?_) r hr ?_
  · intro a b hab hp
    rcases hp with ⟨hpa, hpb⟩
    simp only [Bool.and_eq_true, beq_iff_eq] at hpa hpb
    exact hab (hpa.1.trans hpb.1.symm)
  · simp [hid, huid]

theorem findLeaveByIdAndUser_eq_nil_iff (rid uid : Nat) (s : Db) :
    findLeaveRequestsByIdAndUser rid uid s = [] ↔
      ∀ r ∈ s.leaves, ¬(r.id = rid ∧ r.user_id = uid) := by
  unfold findLeaveRequestsByIdAndUser
  rw [List.filter_eq_nil_iff]
  simp

/-! ### Shape lemmas: each mutating handler either fails leaving the store
untouched or succeeds. -/

theorem clockIn_shape (c : Clock) (i : ClockInInput) (s : Db) :
    (∃ e, clockIn c i s = (.error e, s)) ∨ (∃ v t, clockIn c i s = (.ok v, t)) := by
  unfold clockIn
  split
  · exact .inl ⟨_, rfl⟩
  · split
    · exact .inl ⟨_, rfl⟩
    · exact .inr ⟨_, _, rfl⟩

theorem clockOut_shape (c : Clock) (o : ClockOutInput) (s : Db) :
    (∃ e, clockOut c o s = (.error e, s)) ∨ (∃ v t, clockOut c o s = (.ok v, t)) := by
  unfold clockOut
  split
  · exact .inl ⟨_, rfl⟩
  · split
    · exact .inl ⟨_, rfl⟩
    · split
      · exact .inl ⟨_, rfl⟩
      · exact .inr ⟨_, _, rfl⟩

theorem createLeaveRequest_shape (c : Clock) (li : CreateLeaveRequestInput) (s : Db) :
    (∃ e, createLeaveRequest c li s = (.error e, s)) ∨
      (∃ v t, createLeaveRequest c li s = (.ok v, t)) := by
  unfold createLeaveRequest
  split
  · exact .inl ⟨_, rfl⟩
  · split
    · exact .inl ⟨_, rfl⟩
    · exact .inr ⟨_, _, rfl⟩

theorem updateLeaveRequestStatus_shape (c : Clock) (ui : UpdateLeaveRequestStatusInput)
    (s : Db) :
    (∃ e, updateLeaveRequestStatus c ui s = (.error e, s)) ∨
      (∃ v t, updateLeaveRequestStatus c ui s = (.ok v, t)) := by
  unfold updateLeaveRequestStatus
  split
  · exact .inl ⟨_, rfl⟩
  · split
    · exact .inl ⟨_, rfl⟩
    · exact .inr ⟨_, _, rfl⟩

theorem deleteLeaveRequest_shape (rid uid : Nat) (s : Db) :
    (∃ e, deleteLeaveRequest rid uid s = (.error e, s)) ∨
      (∃ v t, deleteLeaveRequest rid uid s = (.ok v, t)) := by
  unfold deleteLeaveRequest
  split
  · exact .inl ⟨_, rfl⟩
  · split
    · exact .inl ⟨_, rfl⟩
    · exact .inr ⟨_, _, rfl⟩

/-! ### Components untouched by particular handlers -/

theorem createLeaveRequest_attendance (c : Clock) (li : CreateLeaveRequestInput) (s : Db) :
    (createLeaveRequest c li s).2.attendance = s.attendance := by
  unfold createLeaveRequest
  split
  · rfl
  · split <;> rfl

theorem updateLeaveRequestStatus_attendance (c : Clock)
    (ui : UpdateLeaveRequestStatusInput) (s : Db) :
    (updateLeaveRequestStatus c ui s).2.attendance = s.attendance := by
  unfold updateLeaveRequestStatus
  split
  · rfl
  · split <;> rfl

theorem deleteLeaveRequest_attendance (rid uid : Nat) (s : Db) :
    (deleteLeaveRequest rid uid s).2.attendance = s.attendance := by
  unfold deleteLeaveRequest
  split
  · rfl
  · split <;> rfl

theorem clockIn_leaves (c : Clock) (i : ClockInInput) (s : Db) :
    (clockIn c i s).2.leaves = s.leaves := by
  unfold clockIn
  split
  · rfl
  · split <;> rfl

theorem clockOut_leaves (c : Clock) (o : ClockOutInput) (s : Db) :
    (clockOut c o s).2.leaves = s.leaves := by
  unfold clockOut
  split
  · rfl
  · split
    · rfl
    · split <;> rfl

/-! ### C7: createLeaveRequest validation and effect -/

/-- C7: `createLeaveRequest` fails with `NotFoundError` when the user does
not exist and with `ValidationError` ("start date must be before or equal
to end date") whenever `startDate > endDate`, inserting nothing in either
case; for every existing user and every `startDate ≤ endDate` it inserts
exactly one request with status `pending` and `approved_by`, `approved_at`
and `rejection_reason` all null. -/
theorem createLeaveRequest_spec (c : Clock) (li : CreateLeaveRequestInput) (s : Db) :
    ((findUsersById li.user_id s).length = 0 →
      createLeaveRequest c li s = (.error (.notFound "User not found"), s)) ∧
    ((findUsersById li.user_id s).length ≠ 0 → li.end_date < li.start_date →
      createLeaveRequest c li s =
        (.error (.validation "Start date must be before or equal to end date"), s)) ∧
    ((findUsersById li.user_id s).length ≠ 0 → li.start_date ≤ li.end_date →
      createLeaveRequest c li s =
        (.ok (createLeaveRequestRecord c li s),
         { s with leaves := s.leaves ++ [createLeaveRequestRecord c li s],
                  nextLeaveId := s.nextLeaveId + 1 })) ∧
    (createLeaveRequestRecord c li s).status = .pending ∧
    (createLeaveRequestRecord c li s).approved_by = none ∧
    (createLeaveRequestRecord c li s).approved_at = none ∧
    (createLeaveRequestRecord c li s).rejection_reason = none := by
  refine ⟨?_, ?_, ?_, rfl, rfl, rfl, rfl⟩
  · intro h
    have hb : ((findUsersById li.user_id s).length == 0) = true := by simpa using h
    simp [createLeaveRequest, hb]
  · intro h hlt
    have hb : ((findUsersById li.user_id s).length == 0) = false := by simpa using h
    simp [createLeaveRequest, hb, hlt]
  · intro h hle
    have hb : ((findUsersById li.user_id s).length == 0) = false := by simpa using h
    simp [createLeaveRequest, hb, Nat.not_lt.mpr hle]

/-- Witness for C7 at a concrete store: user 1 exists and the dates are
ordered, so the insert happens. -/
theorem createLeaveRequest_spec_witness :
    createLeaveRequest clk1 ⟨1, .vacation, 10, 12, "trip"⟩ dbUserOnly =
      (.ok (createLeaveRequestRecord clk1 ⟨1, .vacation, 10, 12, "trip"⟩ dbUserOnly),
       { dbUserOnly with
           leaves := dbUserOnly.leaves ++
             [createLeaveRequestRecord clk1 ⟨1, .vacation, 10, 12, "trip"⟩ dbUserOnly],
           nextLeaveId := dbUserOnly.nextLeaveId + 1 }) :=
  (createLeaveRequest_spec clk1 ⟨1, .vacation, 10, 12, "trip"⟩ dbUserOnly).2.2.1
    (by decide) (by decide)

/-! ### C10: atomicity on error -/

/-- C10: each mutating handler performs all validation reads before its
single write, so whenever it returns one of the taxonomy errors the store
is exactly as before the call. -/
theorem mutating_ops_atomic_on_error (c : Clock) (i : ClockInInput) (o : ClockOutInput)
    (li : CreateLeaveRequestInput) (ui : UpdateLeaveRequestStatusInput)
    (rid uid : Nat) (s : Db) :
    (∀ e, (clockIn c i s).1 = .error e → (clockIn c i s).2 = s) ∧
    (∀ e, (clockOut c o s).1 = .error e → (clockOut c o s).2 = s) ∧
    (∀ e, (createLeaveRequest c li s).1 = .error e → (createLeaveRequest c li s).2 = s) ∧
    (∀ e, (updateLeaveRequestStatus c ui s).1 = .error e →
      (updateLeaveRequestStatus c ui s).2 = s) ∧
    (∀ e, (deleteLeaveRequest rid uid s).1 = .error e →
      (deleteLeaveRequest rid uid s).2 = s) := by
  refine ⟨?_, ?_, ?_, ?_, ?_⟩ <;> intro e h
  · rcases clockIn_shape c i s with ⟨e', he⟩ | ⟨v, t, hv⟩
    · rw [he]
    · rw [hv] at h; exact absurd h (by simp)
  · rcases clockOut_shape c o s with ⟨e', he⟩ | ⟨v, t, hv⟩
    · rw [he]
    · rw [hv] at h; exact absurd h (by simp)
  · rcases createLeaveRequest_shape c li s with ⟨e', he⟩ | ⟨v, t, hv⟩
    · rw [he]
    · rw [hv] at h; exact absurd h (by simp)
  · rcases updateLeaveRequestStatus_shape c ui s with ⟨e', he⟩ | ⟨v, t, hv⟩
    · rw [he]
    · rw [hv] at h; exact absurd h (by simp)
  · rcases deleteLeaveRequest_shape rid uid s with ⟨e', he⟩ | ⟨v, t, hv⟩
    · rw [he]
    · rw [hv] at h; exact absurd h (by simp)

/-- Witness for C10: a clock-in for a user that does not exist fails and
leaves the empty store untouched. -/
theorem mutating_ops_atomic_on_error_witness :
    (clockIn clk1 ⟨1, none⟩ dbEmpty).2 = dbEmpty :=
  (mutating_ops_atomic_on_error clk1 ⟨1, none⟩ ⟨1, none⟩
      ⟨1, .vacation, 10, 12, "trip"⟩ ⟨1, .approved, 1, none⟩ 1 1 dbEmpty).1
    (.notFound "User not found") (by rfl)

/-! ### C1: per-day uniqueness of attendance records -/

theorem clockIn_attUnique (c : Clock) (i : ClockInInput) (s : Db) (h : attUnique s) :
    attUnique (clockIn c i s).2 := by
  unfold clockIn
  split
  · exact h
  · split
    · exact h
    · rename_i hu hdup
      unfold attUnique
      show (s.attendance ++ [clockInRecord c i s]).Pairwise _
      rw [List.pairwise_append]
      refine ⟨h, List.pairwise_singleton _ _, ?_⟩
      intro a ha b hb
      rw [List.mem_singleton] at hb
      subst hb
      have hempty : findAttendanceByUserAndDate i.user_id c.today s = [] :=
        List.eq_nil_of_length_eq_zero (Nat.eq_zero_of_not_pos hdup)
      have := (findAttendance_eq_nil_iff i.user_id c.today s).mp hempty a ha
      intro hcon
      exact this ⟨by simpa [clockInRecord] using hcon.1,
                  by simpa [clockInRecord] using hcon.2⟩

theorem clockOut_attUnique (c : Clock) (o : ClockOutInput) (s : Db) (h : attUnique s) :
    attUnique (clockOut c o s).2 := by
  unfold clockOut
  split
  · exact h
  · split
    · exact h
    · rename_i record rest hfind
      split
      · exact h
      · unfold attUnique
        show (s.attendance.map _).Pairwise _
        refine h.map _ ?_
        intro a b hab hcon
        apply hab
        constructor
        · have := hcon.1
          by_cases h1 : (a.id == record.id) = true <;>
            by_cases h2 : (b.id == record.id) = true <;>
            simpa [h1, h2, clockOutSet] using this
        · have := hcon.2
          by_cases h1 : (a.id == record.id) = true <;>
            by_cases h2 : (b.id == record.id) = true <;>
            simpa [h1, h2, clockOutSet] using this

/-- C1: for every user and calendar day at most one attendance record
exists, preserved by every mutating operation; a clock-in when today's
record already exists fails with the conflict error and inserts nothing,
and a clock-in with no record today creates exactly one record. -/
theorem per_day_uniqueness (c : Clock) (i : ClockInInput) (o : ClockOutInput)
    (li : CreateLeaveRequestInput) (ui : UpdateLeaveRequestStatusInput)
    (rid uid : Nat) (s : Db) (h : attUnique s) :
    attUnique (clockIn c i s).2 ∧
    attUnique (clockOut c o s).2 ∧
    attUnique (createLeaveRequest c li s).2 ∧
    attUnique (updateLeaveRequestStatus c ui s).2 ∧
    attUnique (deleteLeaveRequest rid uid s).2 ∧
    ((findUsersById i.user_id s).length ≠ 0 →
      findAttendanceByUserAndDate i.user_id c.today s ≠ [] →
      clockIn c i s = (.error (.conflict "User has already clocked in today"), s)) ∧
    ((findUsersById i.user_id s).length ≠ 0 →
      findAttendanceByUserAndDate i.user_id c.today s = [] →
      clockIn c i s =
        (.ok (clockInRecord c i s),
         { s with attendance := s.attendance ++ [clockInRecord c i s],
                  nextAttendanceId := s.nextAttendanceId + 1 })) := by
  refine ⟨clockIn_attUnique c i s h, clockOut_attUnique c o s h, ?_, ?_, ?_, ?_, ?_⟩
  · unfold attUnique
    rw [createLeaveRequest_attendance]
    exact h
  · unfold attUnique
    rw [updateLeaveRequestStatus_attendance]
    exact h
  · unfold attUnique
    rw [deleteLeaveRequest_attendance]
    exact h
  · intro hu hx
    have hb : ((findUsersById i.user_id s).length == 0) = false := by simpa using hu
    have hlen : (findAttendanceByUserAndDate i.user_id c.today s).length > 0 :=
      List.length_pos.mpr hx
    simp [clockIn, hb, hlen]
  · intro hu hx
    have hb : ((findUsersById i.user_id s).length == 0) = false := by simpa using hu
    have hlen : ¬(findAttendanceByUserAndDate i.user_id c.today s).length > 0 := by
      simp [hx]
    simp [clockIn, hb, hlen]

/-- Witness for C1: in a store with one user and no attendance record, the
clock-in succeeds and appends exactly one record. -/
theorem per_day_uniqueness_witness :
    clockIn clk1 ⟨1, none⟩ dbUserOnly =
      (.ok (clockInRecord clk1 ⟨1, none⟩ dbUserOnly),
       { dbUserOnly with
           attendance := dbUserOnly.attendance ++ [clockInRecord clk1 ⟨1, none⟩ dbUserOnly],
           nextAttendanceId := dbUserOnly.nextAttendanceId + 1 }) :=
  (per_day_uniqueness clk1 ⟨1, none⟩ ⟨1, none⟩ ⟨1, .vacation, 10, 12, "trip"⟩
      ⟨1, .approved, 1, none⟩ 1 1 dbUserOnly (by simp [attUnique, dbUserOnly])).2.2.2.2.2.2
    (by decide) (by decide)

/-! ### C5: deleteLeaveRequest preconditions and effect -/

/-- C5: `deleteLeaveRequest` succeeds iff a request with that id exists,
belongs to the caller and is pending; violations of existence/ownership
give the single conflated `NotFoundError` message, a non-pending owned
request gives the `ConflictError`, and on any failure nothing is removed;
on success exactly the addressed request is removed. -/
theorem deleteLeaveRequest_spec (rid uid : Nat) (s : Db) (hnd : leaveIdsNodup s) :
    ((deleteLeaveRequest rid uid s).1 = .ok true ↔
      ∃ r ∈ s.leaves, r.id = rid ∧ r.user_id = uid ∧ r.status = .pending) ∧
    ((∀ r ∈ s.leaves, ¬(r.id = rid ∧ r.user_id = uid)) →
      deleteLeaveRequest rid uid s =
        (.error (.notFound "Leave request not found or does not belong to user"), s)) ∧
    (∀ r ∈ s.leaves, r.id = rid → r.user_id = uid → r.status ≠ .pending →
      deleteLeaveRequest rid uid s =
        (.error (.conflict "Only pending leave requests can be deleted"), s)) ∧
    (∀ e, (deleteLeaveRequest rid uid s).1 = .error e →
      (deleteLeaveRequest rid uid s).2 = s) ∧
    ((deleteLeaveRequest rid uid s).1 = .ok true →
      (deleteLeaveRequest rid uid s).2.leaves = s.leaves.filter (fun r => r.id != rid)) := by
  refine ⟨⟨?_, ?_⟩, ?_, ?_, ?_, ?_⟩
  · intro hok
    unfold deleteLeaveRequest at hok
    rcases hfind : findLeaveRequestsByIdAndUser rid uid s with _ | ⟨record, rest⟩
    · rw [hfind] at hok
      simp at hok
    · rw [hfind] at hok
      have hrec : record ∈ findLeaveRequestsByIdAndUser rid uid s := by
        rw [hfind]; exact List.mem_cons_self _ _
      have hmem := List.mem_filter.mp hrec
      have hprops := hmem.2
      simp only [Bool.and_eq_true, beq_iff_eq] at hprops
      by_cases hst : record.status = .pending
      · exact ⟨record, hmem.1, hprops.1, hprops.2, hst⟩
      · have hbt : (record.status != LeaveRequestStatus.pending) = true := by
          simp [hst]
        simp [hbt] at hok
  · rintro ⟨r, hr, hid, huid, hpend⟩
    have hfind := findLeaveByIdAndUser_singleton rid uid s hnd r hr hid huid
    have hst : (r.status != LeaveRequestStatus.pending) = false := by simp [hpend]
    simp [deleteLeaveRequest, hfind, hst]
  · intro hnone
    have hfind : findLeaveRequestsByIdAndUser rid uid s = [] :=
      (findLeaveByIdAndUser_eq_nil_iff rid uid s).mpr hnone
    simp [deleteLeaveRequest, hfind]
  · intro r hr hid huid hst
    have hfind := findLeaveByIdAndUser_singleton rid uid s hnd r hr hid huid
    have hb : (r.status != LeaveRequestStatus.pending) = true := by simp [hst]
    simp [deleteLeaveRequest, hfind, hb]
  · intro e h
    rcases deleteLeaveRequest_shape rid uid s with ⟨e', he⟩ | ⟨v, t, hv⟩
    · rw [he]
    · rw [hv] at h; exact absurd h (by simp)
  · intro hok
    unfold deleteLeaveRequest at hok ⊢
    rcases hfind : findLeaveRequestsByIdAndUser rid uid s with _ | ⟨record, rest⟩
    · rw [hfind] at hok
      simp at hok
    · rw [hfind] at hok
      by_cases hst : (record.status != LeaveRequestStatus.pending) = true
      · simp [hst] at hok
      · simp [hst]

/-- Witness for C5: deleting the pending request owned by user 1 succeeds
and removes it. -/
theorem deleteLeaveRequest_spec_witness :
    (deleteLeaveRequest 1 1 dbPending).1 = .ok true :=
  (deleteLeaveRequest_spec 1 1 dbPending (by simp [leaveIdsNodup, dbPending])).1.mpr
    ⟨reqPending, by decide, rfl, rfl, rfl⟩

/-! ### C6: clockOut error behaviour -/

/-- C6: for an existing user, clockOut fails with `NotFoundError` when no
record exists for (user, today), fails with `ConflictError` when today's
record is already clocked out, and succeeds setting `clock_out` exactly
when today's record exists with null `clock_out`. -/
theorem clockOut_error_spec (c : Clock) (o : ClockOutInput) (s : Db)
    (hu : (findUsersById o.user_id s).length ≠ 0) (huni : attUnique s) :
    (findAttendanceByUserAndDate o.user_id c.today s = [] →
      clockOut c o s = (.error (.notFound "No clock-in record found for today"), s)) ∧
    (∀ r ∈ s.attendance, r.user_id = o.user_id → r.date = c.today →
      (r.clock_out.isSome = true →
        clockOut c o s = (.error (.conflict "User has already clocked out today"), s)) ∧
      (r.clock_out = none →
        (clockOut c o s).1 = .ok (clockOutSet c o r r) ∧
        (clockOut c o s).2.attendance =
          s.attendance.map (fun x => if x.id == r.id then clockOutSet c o r x else x))) := by
  have hb : ((findUsersById o.user_id s).length == 0) = false := by simpa using hu
  constructor
  · intro hfind
    simp [clockOut, hb, hfind]
  · intro r hr huid hday
    have hfind := findAttendance_singleton o.user_id c.today s huni r hr huid hday
    constructor
    · intro hdone
      simp [clockOut, hb, hfind, hdone]
    · intro hopen
      have : r.clock_out.isSome = false := by simp [hopen]
      simp [clockOut, hb, hfind, this]

/-- Witness for C6: clocking out the open record of user 1 succeeds. -/
theorem clockOut_error_spec_witness :
    (clockOut clk1 ⟨1, none⟩ dbClockedIn).1 =
      .ok (clockOutSet clk1 ⟨1, none⟩ recOld recOld) :=
  (((clockOut_error_spec clk1 ⟨1, none⟩ dbClockedIn (by decide)
      (by simp [attUnique, dbClockedIn])).2 recOld (by decide) rfl rfl).2 rfl).1

/-! ### Preservation of already-completed attendance records -/

theorem clockIn_preserves_records (c : Clock) (i : ClockInInput) (s : Db) :
    ∀ r ∈ s.attendance, r ∈ (clockIn c i s).2.attendance := by
  intro r hr
  unfold clockIn
  split
  · exact hr
  · split
    · exact hr
    · exact List.mem_append_left _ hr

theorem clockOut_record_mem (c : Clock) (o : ClockOutInput) (s : Db)
    (record : AttendanceRecord) (rest : List AttendanceRecord)
    (hfind : findAttendanceByUserAndDate o.user_id c.today s = record :: rest) :
    record ∈ s.attendance := by
  have h1 : record ∈ findAttendanceByUserAndDate o.user_id c.today s := by
    rw [hfind]
    exact List.mem_cons_self _ _
  unfold findAttendanceByUserAndDate at h1
  exact (List.mem_filter.mp h1).1

theorem clockOut_preserves_completed (c : Clock) (o : ClockOutInput) (s : Db)
    (hids : attIdsNodup s) :
    ∀ r ∈ s.attendance, r.clock_out.isSome = true → r ∈ (clockOut c o s).2.attendance := by
  intro r hr hdone
  unfold clockOut
  split
  · exact hr
  · split
    · exact hr
    · rename_i record rest hfind
      split
      · exact hr
      · rename_i hnotout
        show r ∈ s.attendance.map _
        have hrecmem : record ∈ s.attendance := clockOut_record_mem c o s record rest hfind
        have hne : (r.id == record.id) = false := by
          by_cases hid : r.id = record.id
          · have heq : r = record :=
              mem_eq_of_key_unique (fun x : AttendanceRecord => x.id) s.attendance hids
                r hr record hrecmem hid
            rw [heq] at hdone
            exact absurd hdone hnotout
          · simp [hid]
        have hfix : (fun x => if x.id == record.id then clockOutSet c o record x else x) r
            = r := by simp [hne]
        rw [← hfix]
        exact List.mem_map_of_mem _ hr

theorem att_mem_eq_of_id (s : Db) (hids : attIdsNodup s) (a : AttendanceRecord)
    (ha : a ∈ s.attendance) (b : AttendanceRecord) (hb : b ∈ s.attendance)
    (h : a.id = b.id) : a = b :=
  mem_eq_of_key_unique (fun x : AttendanceRecord => x.id) s.attendance hids a ha b hb h

/-! ### C3: total_hours is derived exactly at clock-out -/

theorem clockIn_hoursInv (c : Clock) (i : ClockInInput) (s : Db) (h : hoursInv s) :
    hoursInv (clockIn c i s).2 := by
  unfold clockIn
  split
  · exact h
  · split
    · exact h
    · intro r hr
      rcases List.mem_append.mp hr with hmem | hmem
      · exact h r hmem
      · rw [List.mem_singleton] at hmem
        subst hmem
        simp [clockInRecord, hoursOf]

theorem clockOut_hoursInv (c : Clock) (o : ClockOutInput) (s : Db)
    (hids : attIdsNodup s) (h : hoursInv s) :
    hoursInv (clockOut c o s).2 := by
  unfold clockOut
  split
  · exact h
  · split
    · exact h
    · rename_i record rest hfind
      split
      · exact h
      · intro r' hr'
        rcases List.mem_map.mp hr' with ⟨rr, hrr, heq⟩
        have hrecmem : record ∈ s.attendance := clockOut_record_mem c o s record rest hfind
        by_cases hid : (rr.id == record.id) = true
        · have hrr_eq : rr = record :=
            att_mem_eq_of_id s hids rr hrr record hrecmem (by simpa using hid)
          rw [hid, if_pos rfl] at heq
          subst hrr_eq
          rw [← heq]
          simp [clockOutSet, hoursOf]
        · rw [Bool.not_eq_true] at hid
          rw [hid] at heq
          simp only [Bool.false_eq_true, if_false] at heq
          rw [← heq]
          exact h rr hrr

/-- C3: `total_hours` is non-null iff `clock_out` is non-null and then
equals `(clock_out - clock_in)` in hours; the value is written by the
clockOut call itself (any changed row carries `clock_out = now` and the
derived hours) and no later operation touches a completed record. -/
theorem total_hours_spec (c : Clock) (i : ClockInInput) (o : ClockOutInput)
    (li : CreateLeaveRequestInput) (ui : UpdateLeaveRequestStatusInput)
    (rid uid : Nat) (s : Db) (hids : attIdsNodup s) (h : hoursInv s) :
    hoursInv (clockIn c i s).2 ∧
    hoursInv (clockOut c o s).2 ∧
    hoursInv (createLeaveRequest c li s).2 ∧
    hoursInv (updateLeaveRequestStatus c ui s).2 ∧
    hoursInv (deleteLeaveRequest rid uid s).2 ∧
    (∀ r' ∈ (clockOut c o s).2.attendance, r' ∈ s.attendance ∨
      (r'.clock_out = some c.now ∧ r'.total_hours = hoursOf r')) ∧
    (∀ r ∈ s.attendance, r.clock_out.isSome = true → r ∈ (clockIn c i s).2.attendance) ∧
    (∀ r ∈ s.attendance, r.clock_out.isSome = true → r ∈ (clockOut c o s).2.attendance) ∧
    (∀ r ∈ s.attendance, r.clock_out.isSome = true →
      r ∈ (createLeaveRequest c li s).2.attendance) ∧
    (∀ r ∈ s.attendance, r.clock_out.isSome = true →
      r ∈ (updateLeaveRequestStatus c ui s).2.attendance) ∧
    (∀ r ∈ s.attendance, r.clock_out.isSome = true →
      r ∈ (deleteLeaveRequest rid uid s).2.attendance) := by
  refine ⟨clockIn_hoursInv c i s h, clockOut_hoursInv c o s hids h, ?_, ?_, ?_, ?_,
    fun r hr _ => clockIn_preserves_records c i s r hr,
    clockOut_preserves_completed c o s hids, ?_, ?_, ?_⟩
  · unfold hoursInv
    rw [createLeaveRequest_attendance]
    exact h
  · unfold hoursInv
    rw [updateLeaveRequestStatus_attendance]
    exact h
  · unfold hoursInv
    rw [deleteLeaveRequest_attendance]
    exact h
  · intro r' hr'
    unfold clockOut at hr'
    revert hr'
    split
    · exact fun hr' => .inl hr'
    · split
      · exact fun hr' => .inl hr'
      · rename_i record rest hfind
        split
        · exact fun hr' => .inl hr'
        · intro hr'
          rcases List.mem_map.mp hr' with ⟨rr, hrr, heq⟩
          have hrecmem : record ∈ s.attendance := clockOut_record_mem c o s record rest hfind
          by_cases hid : (rr.id == record.id) = true
          · have hrr_eq : rr = record :=
              att_mem_eq_of_id s hids rr hrr record hrecmem (by simpa using hid)
            rw [hid, if_pos rfl] at heq
            subst hrr_eq
            refine .inr ?_
            rw [← heq]
            simp [clockOutSet, hoursOf]
          · rw [Bool.not_eq_true] at hid
            rw [hid] at heq
            simp only [Bool.false_eq_true, if_false] at heq
            rw [← heq]
            exact .inl hrr
  · intro r hr _
    unfold hoursInv at *
    rw [createLeaveRequest_attendance]
    exact hr
  · intro r hr _
    rw [updateLeaveRequestStatus_attendance]
    exact hr
  · intro r hr _
    rw [deleteLeaveRequest_attendance]
    exact hr

/-- Witness for C3: the invariant holds after clocking out the open record
of the concrete store. -/
theorem total_hours_spec_witness :
    hoursInv (clockOut clk1 ⟨1, none⟩ dbClockedIn).2 :=
  (total_hours_spec clk1 ⟨1, none⟩ ⟨1, none⟩ ⟨1, .vacation, 10, 12, "trip"⟩
      ⟨1, .approved, 1, none⟩ 1 1 dbClockedIn
      (by simp [attIdsNodup, dbClockedIn])
      (by simp [hoursInv, dbClockedIn, recOld, hoursOf])).2.1

/-! ### C8: notes handling on clock-out (the JS `||` makes the empty string
falsy, so supplying `""` retains the old notes instead of overwriting) -/

/-- Counterexample to C8 as stated: clocking out with the supplied notes
value `""` (non-null) succeeds — it sets `clock_out` — yet the record keeps
its previous notes "old" instead of being overwritten with `""`, because
the source computes `input.notes || record.notes` and `""` is falsy. -/
theorem clockOut_empty_notes_cex :
    (clockOut clk1 ⟨1, some ""⟩ dbClockedIn).2.attendance.map (fun r => r.notes)
        = [some "old"] ∧
    (clockOut clk1 ⟨1, some ""⟩ dbClockedIn).2.attendance.map (fun r => r.clock_out)
        = [some 500] := by
  constructor <;> rfl

/-- C8 as amended: on a successful clockOut the record's notes become
`input.notes || record.notes` — overwritten exactly when a non-null,
non-empty notes value is supplied, and retained when the supplied notes is
null, absent, or the empty string; no other operation changes a record's
notes after clock-out (completed records are preserved verbatim by every
mutating operation). -/
theorem clockOut_notes_spec (c : Clock) (i : ClockInInput) (o : ClockOutInput)
    (li : CreateLeaveRequestInput) (ui : UpdateLeaveRequestStatusInput)
    (rid uid : Nat) (s : Db)
    (hu : (findUsersById o.user_id s).length ≠ 0) (huni : attUnique s)
    (hids : attIdsNodup s) (r : AttendanceRecord) (hr : r ∈ s.attendance)
    (huid : r.user_id = o.user_id) (hday : r.date = c.today)
    (hopen : r.clock_out = none) :
    (clockOut c o s).1 = .ok (clockOutSet c o r r) ∧
    (clockOutSet c o r r).notes = jsOr o.notes r.notes ∧
    (o.notes = none → (clockOutSet c o r r).notes = r.notes) ∧
    (∀ t, o.notes = some t → t ≠ "" → (clockOutSet c o r r).notes = some t) ∧
    (o.notes = some "" → (clockOutSet c o r r).notes = r.notes) ∧
    (∀ r' ∈ (clockOut c o s).2.attendance, r'.id = r.id →
      r'.notes = jsOr o.notes r.notes) ∧
    (∀ x ∈ s.attendance, x.clock_out.isSome = true → x ∈ (clockIn c i s).2.attendance) ∧
    (∀ x ∈ s.attendance, x.clock_out.isSome = true → x ∈ (clockOut c o s).2.attendance) ∧
    (∀ x ∈ s.attendance, x.clock_out.isSome = true →
      x ∈ (createLeaveRequest c li s).2.attendance) ∧
    (∀ x ∈ s.attendance, x.clock_out.isSome = true →
      x ∈ (updateLeaveRequestStatus c ui s).2.attendance) ∧
    (∀ x ∈ s.attendance, x.clock_out.isSome = true →
      x ∈ (deleteLeaveRequest rid uid s).2.attendance) := by
  have hb : ((findUsersById o.user_id s).length == 0) = false := by simpa using hu
  have hfind := findAttendance_singleton o.user_id c.today s huni r hr huid hday
  have hno : r.clock_out.isSome = false := by simp [hopen]
  refine ⟨?_, rfl, ?_, ?_, ?_, ?_,
    fun x hx _ => clockIn_preserves_records c i s x hx,
    clockOut_preserves_completed c o s hids, ?_, ?_, ?_⟩
  · simp [clockOut, hb, hfind, hno]
  · intro h0
    simp [clockOutSet, jsOr, h0]
  · intro t ht hne
    simp [clockOutSet, jsOr, ht, hne]
  · intro h0
    simp [clockOutSet, jsOr, h0]
  · intro r' hr' hid
    have hstate : (clockOut c o s).2.attendance =
        s.attendance.map (fun x => if x.id == r.id then clockOutSet c o r x else x) := by
      simp [clockOut, hb, hfind, hno]
    rw [hstate] at hr'
    rcases List.mem_map.mp hr' with ⟨rr, hrr, heq⟩
    by_cases hidr : (rr.id == r.id) = true
    · have hrr_eq : rr = r := att_mem_eq_of_id s hids rr hrr r hr (by simpa using hidr)
      rw [hidr, if_pos rfl] at heq
      subst hrr_eq
      rw [← heq]
      rfl
    · rw [Bool.not_eq_true] at hidr
      rw [hidr] at heq
      simp only [Bool.false_eq_true, if_false] at heq
      rw [← heq] at hid
      exact absurd hid (by simpa using hidr)
  · intro x hx _
    rw [createLeaveRequest_attendance]
    exact hx
  · intro x hx _
    rw [updateLeaveRequestStatus_attendance]
    exact hx
  · intro x hx _
    rw [deleteLeaveRequest_attendance]
    exact hx

/-- Witness for the amended C8: clocking out with non-empty notes "end"
overwrites the stored notes. -/
theorem clockOut_notes_spec_witness :
    (clockOutSet clk1 ⟨1, some "end"⟩ recOld recOld).notes = some "end" :=
  (clockOut_notes_spec clk1 ⟨1, none⟩ ⟨1, some "end"⟩ ⟨1, .vacation, 10, 12, "trip"⟩
      ⟨1, .approved, 1, none⟩ 1 1 dbClockedIn (by decide)
      (by simp [attUnique, dbClockedIn]) (by simp [attIdsNodup, dbClockedIn])
      recOld (by decide) rfl rfl rfl).2.2.2.1 "end" rfl (by decide)

/-! ### C2: leave-request status transitions are NOT one-shot -/

/-- Counterexample to C2 as stated: the store holds a request whose status
is `approved`, and a single `updateLeaveRequestStatus` call moves it to
`rejected` — the handler never consults the current status, so terminal
statuses can be reversed. -/
theorem leave_status_reversal_cex :
    dbApproved.leaves.map (fun r => r.status) = [.approved] ∧
    (updateLeaveRequestStatus clk1 ⟨1, .rejected, 1, none⟩ dbApproved).2.leaves.map
      (fun r => r.status) = [.rejected] ∧
    (updateLeaveRequestStatus clk1 ⟨1, .rejected, 1, none⟩ dbApproved).1 =
      .ok (updateLeaveRequestData clk1 ⟨1, .rejected, 1, none⟩ reqApproved) := by
  refine ⟨rfl, rfl, rfl⟩

/-- C2 as amended: `updateLeaveRequestStatus` imposes no restriction on
status transitions — whenever the request and the approver exist it
succeeds and sets the status to the requested value regardless of the
current status, so `approved`/`rejected` requests can be re-transitioned
(including back to `pending`). -/
theorem updateLeaveRequestStatus_unrestricted (c : Clock)
    (input : UpdateLeaveRequestStatusInput) (s : Db) (r : LeaveRequest)
    (hr : r ∈ s.leaves) (hid : r.id = input.id)
    (happ : (findUsersById input.approved_by s).length ≠ 0) :
    (∃ v, (updateLeaveRequestStatus c input s).1 = .ok v ∧ v.status = input.status) ∧
    (∀ r' ∈ (updateLeaveRequestStatus c input s).2.leaves, r'.id = input.id →
      r'.status = input.status) := by
  have hb : ((findUsersById input.approved_by s).length == 0) = false := by simpa using happ
  have hne : findLeaveRequestsById input.id s ≠ [] := by
    intro hnil
    have h1 : r ∈ findLeaveRequestsById input.id s := by
      unfold findLeaveRequestsById
      exact List.mem_filter.mpr ⟨hr, by simp [hid]⟩
    rw [hnil] at h1
    cases h1
  rcases hfind : findLeaveRequestsById input.id s with _ | ⟨record, rest⟩
  · exact absurd hfind hne
  · constructor
    · refine ⟨updateLeaveRequestData c input record, ?_, rfl⟩
      simp [updateLeaveRequestStatus, hfind, hb]
    · intro r' hr' hid'
      have hstate : (updateLeaveRequestStatus c input s).2.leaves =
          s.leaves.map (fun x => if x.id == input.id then updateLeaveRequestData c input x
                                 else x) := by
        simp [updateLeaveRequestStatus, hfind, hb]
      rw [hstate] at hr'
      rcases List.mem_map.mp hr' with ⟨rr, hrr, heq⟩
      by_cases hidr : (rr.id == input.id) = true
      · rw [hidr, if_pos rfl] at heq
        rw [← heq]
        rfl
      · rw [Bool.not_eq_true] at hidr
        rw [hidr] at heq
        simp only [Bool.false_eq_true, if_false] at heq
        rw [← heq] at hid'
        exact absurd hid' (by simpa using hidr)

/-- Witness for the amended C2: re-transitioning the already-approved
request of the concrete store to rejected succeeds — the stored row now
carries status rejected. -/
theorem updateLeaveRequestStatus_unrestricted_witness :
    (updateLeaveRequestData clk1 ⟨1, .rejected, 1, none⟩ reqApproved).status = .rejected :=
  (updateLeaveRequestStatus_unrestricted clk1 ⟨1, .rejected, 1, none⟩ dbApproved
      reqApproved (by decide) rfl (by decide)).2
    (updateLeaveRequestData clk1 ⟨1, .rejected, 1, none⟩ reqApproved) (by decide) (by rfl)

/-! ### C4: fields written by updateLeaveRequestStatus -/

/-- Counterexample to C4 as stated: approving while also supplying
`rejectionReason = "X"` stores `rejection_reason = "X"`, not null — the
source writes `input.rejection_reason || null` regardless of the new
status. -/
theorem approve_with_reason_cex :
    dbPending.leaves.map (fun r => r.status) = [.pending] ∧
    (updateLeaveRequestStatus clk1 ⟨1, .approved, 1, some "X"⟩ dbPending).2.leaves.map
      (fun r => r.rejection_reason) = [some "X"] ∧
    (updateLeaveRequestStatus clk1 ⟨1, .approved, 1, some "X"⟩ dbPending).2.leaves.map
      (fun r => r.status) = [.approved] ∧
    (updateLeaveRequestStatus clk1 ⟨1, .approved, 1, some "X"⟩ dbPending).2.leaves.map
      (fun r => r.approved_at) = [some 500] := by
  refine ⟨rfl, rfl, rfl, rfl⟩

/-- C4 as amended: for every existing request and approver,
`updateLeaveRequestStatus` sets `approved_by` to the approver id and
`approved_at` to a non-null timestamp iff the new status is approved (null
otherwise), while `rejection_reason` becomes the supplied value when a
non-empty one is supplied and null otherwise — independently of the new
status; in particular rejecting with reason "X" stores `approved_at =
null` and `rejection_reason = "X"`. -/
theorem updateLeaveRequestStatus_fields (c : Clock)
    (input : UpdateLeaveRequestStatusInput) (s : Db) (hnd : leaveIdsNodup s)
    (r : LeaveRequest) (hr : r ∈ s.leaves) (hid : r.id = input.id)
    (happ : (findUsersById input.approved_by s).length ≠ 0) :
    (updateLeaveRequestStatus c input s).1 = .ok (updateLeaveRequestData c input r) ∧
    (updateLeaveRequestData c input r).status = input.status ∧
    (updateLeaveRequestData c input r).approved_by = some input.approved_by ∧
    (input.status = .approved →
      (updateLeaveRequestData c input r).approved_at = some c.now) ∧
    (input.status ≠ .approved →
      (updateLeaveRequestData c input r).approved_at = none) ∧
    (updateLeaveRequestData c input r).rejection_reason = jsOr input.rejection_reason none ∧
    (∀ x, input.rejection_reason = some x → x ≠ "" →
      (updateLeaveRequestData c input r).rejection_reason = some x) ∧
    (input.rejection_reason = none →
      (updateLeaveRequestData c input r).rejection_reason = none) := by
  have hb : ((findUsersById input.approved_by s).length == 0) = false := by simpa using happ
  have hfind := findLeaveById_singleton input.id s hnd r hr hid
  refine ⟨?_, rfl, rfl, ?_, ?_, rfl, ?_, ?_⟩
  · simp [updateLeaveRequestStatus, hfind, hb]
  · intro h
    simp [updateLeaveRequestData, h]
  · intro h
    have : (input.status == LeaveRequestStatus.approved) = false := by
      simpa using h
    simp [updateLeaveRequestData, this]
  · intro x hx hxe
    simp [updateLeaveRequestData, jsOr, hx, hxe]
  · intro hx
    simp [updateLeaveRequestData, jsOr, hx]

/-- Witness for the amended C4: rejecting the pending request with reason
"X" stores the reason and a null approval timestamp. -/
theorem updateLeaveRequestStatus_fields_witness :
    (updateLeaveRequestStatus clk1 ⟨1, .rejected, 1, some "X"⟩ dbPending).1 =
      .ok (updateLeaveRequestData clk1 ⟨1, .rejected, 1, some "X"⟩ reqPending) :=
  (updateLeaveRequestStatus_fields clk1 ⟨1, .rejected, 1, some "X"⟩ dbPending
      (by simp [leaveIdsNodup, dbPending]) reqPending (by decide) rfl (by decide)).1

/-! ### C9: the is_active flag is never consulted by the core handlers -/

theorem filter_id_map_active (f : User → Bool) (uid : Nat) :
    ∀ l : List User,
      (l.map (fun u => { u with is_active := f u })).filter (fun u => u.id == uid)
        = (l.filter (fun u => u.id == uid)).map (fun u => { u with is_active := f u }) := by
  intro l
  induction l with
  | nil => rfl
  | cons u l ih =>
      by_cases h : (u.id == uid) = true
      · simp only [List.map_cons, List.filter_cons]
        rw [show ((({ u with is_active := f u } : User)).id == uid) = true from h]
        simp [h, ih]
      · rw [Bool.not_eq_true] at h
        simp only [List.map_cons, List.filter_cons]
        rw [show ((({ u with is_active := f u } : User)).id == uid) = false from h]
        simp [h, ih]

theorem findUsersById_setActive (f : User → Bool) (uid : Nat) (s : Db) :
    (findUsersById uid (setActive f s)).length = (findUsersById uid s).length := by
  show ((s.users.map (fun u : User => ({ u with is_active := f u } : User))).filter
    (fun u : User => u.id == uid)).length
      = ((s.users.filter (fun u : User => u.id == uid))).length
  rw [filter_id_map_active, List.length_map]

theorem clockIn_setActive (f : User → Bool) (c : Clock) (i : ClockInInput) (s : Db) :
    (clockIn c i (setActive f s)).1 = (clockIn c i s).1 ∧
    (clockIn c i (setActive f s)).2.attendance = (clockIn c i s).2.attendance ∧
    (clockIn c i (setActive f s)).2.leaves = (clockIn c i s).2.leaves := by
  unfold clockIn
  rw [findUsersById_setActive]
  have hatt : findAttendanceByUserAndDate i.user_id c.today (setActive f s)
      = findAttendanceByUserAndDate i.user_id c.today s := rfl
  rw [hatt]
  by_cases h1 : ((findUsersById i.user_id s).length == 0) = true
  · simp only [h1, if_true]
    exact ⟨by simp [setActive, clockInRecord, createLeaveRequestRecord, clockOutSet],
        by simp [setActive, clockInRecord, createLeaveRequestRecord, clockOutSet],
        by simp [setActive, clockInRecord, createLeaveRequestRecord, clockOutSet]⟩
  · rw [Bool.not_eq_true] at h1
    simp only [h1, Bool.false_eq_true, if_false]
    by_cases h2 : (findAttendanceByUserAndDate i.user_id c.today s).length > 0
    · simp only [if_pos h2]
      exact ⟨by simp [setActive, clockInRecord, createLeaveRequestRecord, clockOutSet],
        by simp [setActive, clockInRecord, createLeaveRequestRecord, clockOutSet],
        by simp [setActive, clockInRecord, createLeaveRequestRecord, clockOutSet]⟩
    · simp only [if_neg h2]
      exact ⟨by simp [setActive, clockInRecord, createLeaveRequestRecord, clockOutSet],
        by simp [setActive, clockInRecord, createLeaveRequestRecord, clockOutSet],
        by simp [setActive, clockInRecord, createLeaveRequestRecord, clockOutSet]⟩

theorem clockOut_setActive (f : User → Bool) (c : Clock) (o : ClockOutInput) (s : Db) :
    (clockOut c o (setActive f s)).1 = (clockOut c o s).1 ∧
    (clockOut c o (setActive f s)).2.attendance = (clockOut c o s).2.attendance ∧
    (clockOut c o (setActive f s)).2.leaves = (clockOut c o s).2.leaves := by
  unfold clockOut
  rw [findUsersById_setActive]
  have hatt : findAttendanceByUserAndDate o.user_id c.today (setActive f s)
      = findAttendanceByUserAndDate o.user_id c.today s := rfl
  rw [hatt]
  by_cases h1 : ((findUsersById o.user_id s).length == 0) = true
  · simp only [h1, if_true]
    exact ⟨by simp [setActive, clockInRecord, createLeaveRequestRecord, clockOutSet],
        by simp [setActive, clockInRecord, createLeaveRequestRecord, clockOutSet],
        by simp [setActive, clockInRecord, createLeaveRequestRecord, clockOutSet]⟩
  · rw [Bool.not_eq_true] at h1
    simp only [h1, Bool.false_eq_true, if_false]
    rcases hfind : findAttendanceByUserAndDate o.user_id c.today s with _ | ⟨record, rest⟩
    · exact ⟨rfl, rfl, rfl⟩
    · by_cases h2 : record.clock_out.isSome = true
      · simp only [h2, if_true]
        exact ⟨by simp [setActive, clockInRecord, createLeaveRequestRecord, clockOutSet],
        by simp [setActive, clockInRecord, createLeaveRequestRecord, clockOutSet],
        by simp [setActive, clockInRecord, createLeaveRequestRecord, clockOutSet]⟩
      · rw [Bool.not_eq_true] at h2
        simp only [h2, Bool.false_eq_true, if_false]
        exact ⟨by simp [setActive, clockInRecord, createLeaveRequestRecord, clockOutSet],
        by simp [setActive, clockInRecord, createLeaveRequestRecord, clockOutSet],
        by simp [setActive, clockInRecord, createLeaveRequestRecord, clockOutSet]⟩

theorem getTodayAttendanceStatus_setActive (f : User → Bool) (c : Clock) (uid : Nat)
    (s : Db) :
    getTodayAttendanceStatus c uid (setActive f s) = getTodayAttendanceStatus c uid s := by
  unfold getTodayAttendanceStatus
  rw [findUsersById_setActive]
  rfl

theorem getUserAttendance_setActive (f : User → Bool) (gi : GetUserAttendanceInput)
    (s : Db) :
    getUserAttendance gi (setActive f s) = getUserAttendance gi s := by
  unfold getUserAttendance
  rw [findUsersById_setActive]
  rfl

theorem createLeaveRequest_setActive (f : User → Bool) (c : Clock)
    (li : CreateLeaveRequestInput) (s : Db) :
    (createLeaveRequest c li (setActive f s)).1 = (createLeaveRequest c li s).1 ∧
    (createLeaveRequest c li (setActive f s)).2.attendance
      = (createLeaveRequest c li s).2.attendance ∧
    (createLeaveRequest c li (setActive f s)).2.leaves
      = (createLeaveRequest c li s).2.leaves := by
  unfold createLeaveRequest
  rw [findUsersById_setActive]
  by_cases h1 : ((findUsersById li.user_id s).length == 0) = true
  · simp only [h1, if_true]
    exact ⟨by simp [setActive, clockInRecord, createLeaveRequestRecord, clockOutSet],
        by simp [setActive, clockInRecord, createLeaveRequestRecord, clockOutSet],
        by simp [setActive, clockInRecord, createLeaveRequestRecord, clockOutSet]⟩
  · rw [Bool.not_eq_true] at h1
    simp only [h1, Bool.false_eq_true, if_false]
    by_cases h2 : li.end_date < li.start_date
    · simp only [if_pos h2]
      exact ⟨by simp [setActive, clockInRecord, createLeaveRequestRecord, clockOutSet],
        by simp [setActive, clockInRecord, createLeaveRequestRecord, clockOutSet],
        by simp [setActive, clockInRecord, createLeaveRequestRecord, clockOutSet]⟩
    · simp only [if_neg h2]
      exact ⟨by simp [setActive, clockInRecord, createLeaveRequestRecord, clockOutSet],
        by simp [setActive, clockInRecord, createLeaveRequestRecord, clockOutSet],
        by simp [setActive, clockInRecord, createLeaveRequestRecord, clockOutSet]⟩

theorem getUserLeaveRequests_setActive (f : User → Bool) (uid : Nat) (s : Db) :
    getUserLeaveRequests uid (setActive f s) = getUserLeaveRequests uid s := by
  unfold getUserLeaveRequests
  rw [findUsersById_setActive]
  rfl

theorem clockIn_user_notFound_iff (c : Clock) (i : ClockInInput) (s : Db) :
    (clockIn c i s).1 = .error (.notFound "User not found") ↔
      ∀ u ∈ s.users, u.id ≠ i.user_id := by
  unfold clockIn
  by_cases h1 : ((findUsersById i.user_id s).length == 0) = true
  · simp only [h1, if_true]
    simpa using (userMissing_iff _ _).mp h1
  · have hno : ¬ ∀ u ∈ s.users, u.id ≠ i.user_id := fun hall =>
      h1 ((userMissing_iff _ _).mpr hall)
    rw [Bool.not_eq_true] at h1
    simp only [h1, Bool.false_eq_true, if_false]
    refine iff_of_false ?_ hno
    split <;> simp

theorem clockOut_user_notFound_iff (c : Clock) (o : ClockOutInput) (s : Db) :
    (clockOut c o s).1 = .error (.notFound "User not found") ↔
      ∀ u ∈ s.users, u.id ≠ o.user_id := by
  unfold clockOut
  by_cases h1 : ((findUsersById o.user_id s).length == 0) = true
  · simp only [h1, if_true]
    simpa using (userMissing_iff _ _).mp h1
  · have hno : ¬ ∀ u ∈ s.users, u.id ≠ o.user_id := fun hall =>
      h1 ((userMissing_iff _ _).mpr hall)
    rw [Bool.not_eq_true] at h1
    simp only [h1, Bool.false_eq_true, if_false]
    refine iff_of_false ?_ hno
    split
    · simp
    · split <;> simp

theorem getTodayAttendanceStatus_user_notFound_iff (c : Clock) (uid : Nat) (s : Db) :
    getTodayAttendanceStatus c uid s = .error (.notFound "User not found") ↔
      ∀ u ∈ s.users, u.id ≠ uid := by
  unfold getTodayAttendanceStatus
  by_cases h1 : ((findUsersById uid s).length == 0) = true
  · simp only [h1, if_true]
    simpa using (userMissing_iff _ _).mp h1
  · have hno : ¬ ∀ u ∈ s.users, u.id ≠ uid := fun hall =>
      h1 ((userMissing_iff _ _).mpr hall)
    rw [Bool.not_eq_true] at h1
    simp only [h1, Bool.false_eq_true, if_false]
    refine iff_of_false ?_ hno
    split <;> simp

theorem getUserAttendance_user_notFound_iff (gi : GetUserAttendanceInput) (s : Db) :
    getUserAttendance gi s = .error (.notFound "User not found") ↔
      ∀ u ∈ s.users, u.id ≠ gi.user_id := by
  unfold getUserAttendance
  by_cases h1 : ((findUsersById gi.user_id s).length == 0) = true
  · simp only [h1, if_true]
    simpa using (userMissing_iff _ _).mp h1
  · have hno : ¬ ∀ u ∈ s.users, u.id ≠ gi.user_id := fun hall =>
      h1 ((userMissing_iff _ _).mpr hall)
    rw [Bool.not_eq_true] at h1
    simp only [h1, Bool.false_eq_true, if_false]
    exact iff_of_false (by simp) hno

theorem createLeaveRequest_user_notFound_iff (c : Clock) (li : CreateLeaveRequestInput)
    (s : Db) :
    (createLeaveRequest c li s).1 = .error (.notFound "User not found") ↔
      ∀ u ∈ s.users, u.id ≠ li.user_id := by
  unfold createLeaveRequest
  by_cases h1 : ((findUsersById li.user_id s).length == 0) = true
  · simp only [h1, if_true]
    simpa using (userMissing_iff _ _).mp h1
  · have hno : ¬ ∀ u ∈ s.users, u.id ≠ li.user_id := fun hall =>
      h1 ((userMissing_iff _ _).mpr hall)
    rw [Bool.not_eq_true] at h1
    simp only [h1, Bool.false_eq_true, if_false]
    refine iff_of_false ?_ hno
    split <;> simp

theorem getUserLeaveRequests_user_notFound_iff (uid : Nat) (s : Db) :
    getUserLeaveRequests uid s = .error (.notFound "User not found") ↔
      ∀ u ∈ s.users, u.id ≠ uid := by
  unfold getUserLeaveRequests
  by_cases h1 : ((findUsersById uid s).length == 0) = true
  · simp only [h1, if_true]
    simpa using (userMissing_iff _ _).mp h1
  · have hno : ¬ ∀ u ∈ s.users, u.id ≠ uid := fun hall =>
      h1 ((userMissing_iff _ _).mpr hall)
    rw [Bool.not_eq_true] at h1
    simp only [h1, Bool.false_eq_true, if_false]
    exact iff_of_false (by simp) hno

/-- C9: the `is_active` flag is never consulted — rewriting every user's
flag arbitrarily changes neither the result nor the attendance/leave tables
produced by clockIn, clockOut, getTodayAttendanceStatus, getUserAttendance,
createLeaveRequest and getUserLeaveRequests, and each of these raises its
"User not found" error exactly when no user row with the given id exists,
regardless of `is_active`. -/
theorem is_active_never_consulted (f : User → Bool) (c : Clock) (i : ClockInInput)
    (o : ClockOutInput) (li : CreateLeaveRequestInput) (gi : GetUserAttendanceInput)
    (uid : Nat) (s : Db) :
    ((clockIn c i (setActive f s)).1 = (clockIn c i s).1 ∧
     (clockIn c i (setActive f s)).2.attendance = (clockIn c i s).2.attendance ∧
     (clockIn c i (setActive f s)).2.leaves = (clockIn c i s).2.leaves) ∧
    ((clockOut c o (setActive f s)).1 = (clockOut c o s).1 ∧
     (clockOut c o (setActive f s)).2.attendance = (clockOut c o s).2.attendance ∧
     (clockOut c o (setActive f s)).2.leaves = (clockOut c o s).2.leaves) ∧
    getTodayAttendanceStatus c uid (setActive f s) = getTodayAttendanceStatus c uid s ∧
    getUserAttendance gi (setActive f s) = getUserAttendance gi s ∧
    ((createLeaveRequest c li (setActive f s)).1 = (createLeaveRequest c li s).1 ∧
     (createLeaveRequest c li (setActive f s)).2.attendance
       = (createLeaveRequest c li s).2.attendance ∧
     (createLeaveRequest c li (setActive f s)).2.leaves
       = (createLeaveRequest c li s).2.leaves) ∧
    getUserLeaveRequests uid (setActive f s) = getUserLeaveRequests uid s ∧
    ((clockIn c i s).1 = .error (.notFound "User not found") ↔
      ∀ u ∈ s.users, u.id ≠ i.user_id) ∧
    ((clockOut c o s).1 = .error (.notFound "User not found") ↔
      ∀ u ∈ s.users, u.id ≠ o.user_id) ∧
    (getTodayAttendanceStatus c uid s = .error (.notFound "User not found") ↔
      ∀ u ∈ s.users, u.id ≠ uid) ∧
    (getUserAttendance gi s = .error (.notFound "User not found") ↔
      ∀ u ∈ s.users, u.id ≠ gi.user_id) ∧
    ((createLeaveRequest c li s).1 = .error (.notFound "User not found") ↔
      ∀ u ∈ s.users, u.id ≠ li.user_id) ∧
    (getUserLeaveRequests uid s = .error (.notFound "User not found") ↔
      ∀ u ∈ s.users, u.id ≠ uid) :=
  ⟨clockIn_setActive f c i s, clockOut_setActive f c o s,
   getTodayAttendanceStatus_setActive f c uid s, getUserAttendance_setActive f gi s,
   createLeaveRequest_setActive f c li s, getUserLeaveRequests_setActive f uid s,
   clockIn_user_notFound_iff c i s, clockOut_user_notFound_iff c o s,
   getTodayAttendanceStatus_user_notFound_iff c uid s,
   getUserAttendance_user_notFound_iff gi s,
   createLeaveRequest_user_notFound_iff c li s,
   getUserLeaveRequests_user_notFound_iff uid s⟩

end AttendanceSpec
